import Mathlib

/-!
Shallow embedding of the two Python variants of this repository
(`Data_Extractor.py`, the read-only variant, and `Ingestor.py`, the
write-back variant), together with theorems checking the specification's
claims against it.

Remote I/O (the Notion HTTP API) is modelled by an explicit environment of
pure functions: `none` / `false` results stand for non-200 responses.
Python dictionaries returned by the API are modelled by structures holding
exactly the fields the programs access; a `KeyError` raised by a direct
subscript (`block['type']`, `block[block_type]`) is modelled by `Except`
error propagation, while `.get(...)` accesses are total.
-/

/-- Model of Python `\w` (word character) for the `\b` boundaries of the
regex in `extract_org_id_from_blocks`, restricted to the ASCII range. -/
def isWordChar (c : Char) : Bool := c.isAlphanum || c == '_'

/-- Hexadecimal character, the class `[a-fA-F0-9]` of the regex. -/
def isHexChar (c : Char) : Bool :=
  (('0' ≤ c) && (c ≤ '9')) || (('a' ≤ c) && (c ≤ 'f')) || (('A' ≤ c) && (c ≤ 'F'))

/-- Consume exactly `n` hex characters, returning them and the rest;
models `[a-fA-F0-9]{n}`. -/
def takeHexN : Nat → List Char → Option (List Char × List Char)
  | 0, cs => some ([], cs)
  | _ + 1, [] => none
  | n + 1, c :: cs =>
    if isHexChar c then
      match takeHexN n cs with
      | some (h, r) => some (c :: h, r)
      | none => none
    else none

/-- Consume a literal hyphen. -/
def matchDash : List Char → Option (List Char)
  | '-' :: r => some r
  | _ => none

/-- Match the body `[hex]{8}-[hex]{4}-[hex]{4}-[hex]{4}-[hex]{12}` at the
start of the character list, returning the matched characters and the
remainder. -/
def matchUuidCore (cs : List Char) : Option (List Char × List Char) :=
  match takeHexN 8 cs with
  | none => none
  | some (g1, r1) =>
    match matchDash r1 with
    | none => none
    | some r2 =>
      match takeHexN 4 r2 with
      | none => none
      | some (g2, r3) =>
        match matchDash r3 with
        | none => none
        | some r4 =>
          match takeHexN 4 r4 with
          | none => none
          | some (g3, r5) =>
            match matchDash r5 with
            | none => none
            | some r6 =>
              match takeHexN 4 r6 with
              | none => none
              | some (g4, r7) =>
                match matchDash r7 with
                | none => none
                | some r8 =>
                  match takeHexN 12 r8 with
                  | none => none
                  | some (g5, r9) =>
                    some (g1 ++ '-' :: (g2 ++ '-' :: (g3 ++ '-' :: (g4 ++ '-' :: g5))), r9)

/-- A `\b` before the match: the pattern starts with a word character, so
the boundary holds iff the preceding character (if any) is not a word
character. -/
def boundaryBefore : Option Char → Bool
  | none => true
  | some c => !isWordChar c

/-- A `\b` after the match: the pattern ends with a word character, so the
boundary holds iff the following character (if any) is not a word
character. -/
def boundaryAfter : List Char → Bool
  | [] => true
  | c :: _ => !isWordChar c

/-- Attempt the whole anchored pattern `\b...\b` at the current position,
given the character immediately before that position. -/
def tryUuidAt (prev : Option Char) (cs : List Char) : Option String :=
  if boundaryBefore prev then
    match matchUuidCore cs with
    | some (m, r) => if boundaryAfter r then some (String.mk m) else none
    | none => none
  else none

/-- Left-to-right scan of the text, attempting the pattern at every
position; models the leftmost-match semantics of `re.search` (and of
`re.findall(...)[0]`, which coincides with it for this fixed-length,
alternation-free pattern). -/
def findUuidAux : Option Char → List Char → Option String
  | _, [] => none
  | prev, c :: rest =>
    match tryUuidAt prev (c :: rest) with
    | some m => some m
    | none => findUuidAux (some c) rest

/-- First (leftmost) match of the fixed organisation-id pattern
`\b[a-fA-F0-9]{8}-[a-fA-F0-9]{4}-[a-fA-F0-9]{4}-[a-fA-F0-9]{4}-[a-fA-F0-9]{12}\b`
in a string; `none` when the pattern does not occur. -/
def firstUuid (s : String) : Option String := findUuidAux none s.data

/-- One span of a rich-text array: only the `plain_text` field is ever
accessed by the programs, so a span is modelled by that string. The typed
payload of a block (`block[block_type]`) accesses `rich_text` with `.get`,
so its possible absence is an `Option`. -/
structure BlockData where
  rich_text : Option (List String)
deriving DecidableEq, Repr

/-- A content block as returned by the blocks endpoint. `type` models the
`'type'` key (`none` when the key is absent, which makes `block['type']`
raise), and `fields` models the remaining keys, looked up by name
(`block[block_type]` raises when the key named by the type is absent). -/
structure Block where
  type : Option String
  fields : List (String × BlockData)
deriving DecidableEq, Repr

/-- The recognized rich-text-bearing block variants. -/
def recognizedTypes : List String :=
  ["paragraph", "heading_1", "heading_2", "heading_3", "bulleted_list_item",
   "numbered_list_item", "to_do", "toggle", "callout", "quote"]

/-- Concatenated plain text of a typed block payload:
`''.join([text_part['plain_text'] for text_part in block_data.get('rich_text', [])])`. -/
def blockText (bd : BlockData) : String :=
  String.join (bd.rich_text.getD [])

/-- Model of `extract_org_id_from_blocks` (identical logic in both source
files): walk the blocks in order; for each block read `block['type']` and
`block[block_type]` (a missing key raises, modelled as `.error ()`); for
recognized variants search the concatenated plain text for the pattern and
return the first match; otherwise continue; `none` when no block matched.
The surrounding `blocks.get('results', [])` is modelled by passing the
result list itself. -/
def extract_org_id_from_blocks : List Block → Except Unit (Option String)
  | [] => .ok none
  | b :: rest =>
    match b.type with
    | none => .error ()
    | some block_type =>
      match b.fields.lookup block_type with
      | none => .error ()
      | some block_data =>
        if recognizedTypes.contains block_type then
          match firstUuid (blockText block_data) with
          | some m => .ok (some m)
          | none => extract_org_id_from_blocks rest
        else extract_org_id_from_blocks rest

/-- A database entry ("card") as delivered by the listing endpoint,
restricted to the fields the programs access: `id` is `item['id']`;
`orgaId` models `item['properties']['ORGA ID*']` (`none` when the property
is absent, otherwise the `plain_text` runs of its `rich_text` array, with
`[]` covering an absent or empty array); `title` models the first
title-typed property (`none` when no such property exists, otherwise the
`plain_text` runs of its `title` array). -/
structure Item where
  id : String
  orgaId : Option (List String)
  title : Option (List String)
deriving DecidableEq, Repr

/-- A single entry as re-read by `verify_card_property`; only the
`'ORGA ID*'` property is accessed. -/
structure Page where
  orgaId : Option (List String)
deriving DecidableEq, Repr

/-- One response of the paginated listing endpoint. -/
structure QueryResp where
  results : List Item
  has_more : Bool
  next_cursor : Option String
deriving DecidableEq, Repr

/-- Truthiness of `orga_id_property and orga_id_property.get('rich_text')`:
the property exists and its rich-text array is non-empty. -/
def isFilled : Option (List String) → Bool
  | some (_ :: _) => true
  | _ => false

/-- Result of `item['id'].replace('-', '')`. -/
def stripHyphens (s : String) : String := String.mk (s.data.filter (fun c => c ≠ '-'))

/-- The card link `f"https://www.notion.so/{page_id.replace('-', '')}"`. -/
def cardLink (id : String) : String := "https://www.notion.so/" ++ stripHyphens id

/-- Title string of an item: concatenated plain text of the title-typed
property, or the fixed placeholder when no such property exists. -/
def titleOf (item : Item) : String :=
  match item.title with
  | some ts => String.join ts
  | none => "Title not found"

/-- One row of the export: `{'Link': ..., 'Card Title': ..., 'Org ID': ...,
'Source': 'Corpus'}`. -/
structure Record where
  link : String
  cardTitle : String
  orgId : String
  source : String
deriving DecidableEq, Repr

/-- The CSV header row produced by `DataFrame.to_csv` for these records. -/
def csvHeader : String := "Link,Card Title,Org ID,Source"

/-- One CSV data row for a record. -/
def toCsvRow (r : Record) : String :=
  r.link ++ "," ++ r.cardTitle ++ "," ++ r.orgId ++ "," ++ r.source

/-- The remote collaborator, as pure functions. `fetchBlocks` is the
outcome of `get_page_blocks` (`none` for a non-200 response, otherwise the
`results` array); `patchOk` is the HTTP success of the PATCH issued by
`update_card_property`; `fetchPage` is the outcome of the GET issued by
`verify_card_property`. -/
structure Env where
  fetchBlocks : String → Option (List Block)
  patchOk : String → String → Bool
  fetchPage : String → Option Page

/-- Truthiness normalisation of `if start_cursor:` inside
`get_database_items`: `None` and the empty string both mean "no cursor in
the payload", i.e. the first page. -/
def normCursor : Option String → Option String
  | some s => if s = "" then none else some s
  | none => none

/-- Model of `get_database_items`: the listing collaborator applied to the
normalised cursor; `none` models a non-200 response. -/
def get_database_items (listing : Option String → Option QueryResp)
    (cursor : Option String) : Option QueryResp :=
  listing (normCursor cursor)

/-- Outcome of processing one item: the record appended (if any), whether
a blocks-fetch call was issued for it, and how much the progress bar
advanced. -/
structure StepResult where
  record : Option Record
  fetched : Bool
  progress : Nat
deriving DecidableEq, Repr

/-- End condition of the pagination loop. -/
inductive LoopEnd where
  | done
  | pageFailed
  | outOfFuel
deriving DecidableEq, Repr

/-- Accumulated outcome of the pagination loop: records and progress-bar
units accumulated, the items delivered by the pages actually traversed,
and how the loop stopped. -/
structure LoopOut where
  records : List Record
  progress : Nat
  delivered : List Item
  stop : LoopEnd
deriving DecidableEq, Repr

/-- Result of a whole run of `main`: early return on a failed initial
listing, an uncaught exception, a pagination loop that never stops (fuel
exhausted in the model), or reaching the export step with the accumulated
records and final progress count. -/
inductive MainResult where
  | abortInitial
  | crashed
  | diverged
  | exported (records : List Record) (progress : Nat)
deriving DecidableEq, Repr

/-- Outcome of the export step: the lines of the file written (`none` when
no file is written) and the console message emitted. -/
structure ExportOut where
  file : Option (List String)
  message : String
deriving DecidableEq, Repr

namespace DataExtractor

/-- Body of the `for item in database_items.get('results', [])` loop of
`extract_card_info` in `Data_Extractor.py`, for one item: skip (without
advancing the progress bar) when `'ORGA ID*'` is filled; otherwise build
title and link, fetch the blocks, extract the identifier, append a record
when one was found, and advance the progress bar by one. An exception
escaping `extract_org_id_from_blocks` propagates. -/
def processItem (env : Env) (item : Item) : Except Unit StepResult :=
  if isFilled item.orgaId then .ok ⟨none, false, 0⟩
  else
    match env.fetchBlocks item.id with
    | none => .ok ⟨none, true, 1⟩
    | some blocks =>
      match extract_org_id_from_blocks blocks with
      | .error e => .error e
      | .ok none => .ok ⟨none, true, 1⟩
      | .ok (some oid) =>
        .ok ⟨some ⟨cardLink item.id, titleOf item, oid, "Corpus"⟩, true, 1⟩

/-- Model of `extract_card_info` of `Data_Extractor.py`: fold of
`processItem` over one page of items, accumulating the record list and the
progress-bar advance; an exception discards the partial results. -/
def extract_card_info (env : Env) : List Item → Except Unit (List Record × Nat)
  | [] => .ok ([], 0)
  | item :: rest =>
    match processItem env item with
    | .error e => .error e
    | .ok s =>
      match extract_card_info env rest with
      | .error e => .error e
      | .ok (recs, n) => .ok (s.record.toList ++ recs, s.progress + n)

/-- The `while True` pagination loop of `main` in `Data_Extractor.py`:
fetch a page (a failure breaks the loop), process it, stop when `has_more`
is falsy, otherwise continue from `next_cursor`; `fuel` bounds the number
of iterations in the model. -/
def loop (listing : Option String → Option QueryResp) (env : Env) :
    Nat → Option String → Except Unit LoopOut
  | 0, _ => .ok ⟨[], 0, [], .outOfFuel⟩
  | fuel + 1, cursor =>
    match get_database_items listing cursor with
    | none => .ok ⟨[], 0, [], .pageFailed⟩
    | some resp =>
      match extract_card_info env resp.results with
      | .error e => .error e
      | .ok (recs, n) =>
        if resp.has_more then
          match loop listing env fuel resp.next_cursor with
          | .error e => .error e
          | .ok out => .ok ⟨recs ++ out.records, n + out.progress, resp.results ++ out.delivered, out.stop⟩
        else .ok ⟨recs, n, resp.results, .done⟩

/-- Model of `main` in `Data_Extractor.py`: a failed initial cursor-less
listing aborts the run; otherwise the pagination loop runs, an uncaught
exception crashes the run, and every other outcome reaches the export step
with the accumulated records and progress. -/
def main (listing : Option String → Option QueryResp) (env : Env) (fuel : Nat) : MainResult :=
  match get_database_items listing none with
  | none => .abortInitial
  | some _ =>
    match loop listing env fuel none with
    | .error _ => .crashed
    | .ok out =>
      match out.stop with
      | .outOfFuel => .diverged
      | _ => .exported out.records out.progress

/-- The export step of `Data_Extractor.py`: when records were accumulated,
write the CSV (header row then one row per record) and print the success
message; otherwise write nothing and print a distinct message. The
user-profile-relative path is abstracted to a fixed string in the message. -/
def exportStep (recs : List Record) : ExportOut :=
  if recs.isEmpty then
    ⟨none, "No cards were found with an organization ID in the body."⟩
  else
    ⟨some (csvHeader :: recs.map toCsvRow), "Card information has been written to the desktop CSV file."⟩

end DataExtractor

namespace Ingestor

/-- Model of `update_card_property` in `Ingestor.py`: issue the PATCH
setting `'ORGA ID*'` to the given value; `True` exactly when the HTTP call
succeeded. -/
def update_card_property (env : Env) (page_id orga_id : String) : Bool :=
  env.patchOk page_id orga_id

/-- Model of `verify_card_property` in `Ingestor.py`: re-fetch the entry
(`False` on a non-200 response); `True` exactly when the `'ORGA ID*'`
property exists with a non-empty rich-text array whose concatenated plain
text equals the expected value. -/
def verify_card_property (env : Env) (page_id expected_orga_id : String) : Bool :=
  match env.fetchPage page_id with
  | none => false
  | some page =>
    match page.orgaId with
    | some (t :: ts) => String.join (t :: ts) == expected_orga_id
    | _ => false

/-- Body of the item loop of `extract_card_info` in `Ingestor.py`, for one
item: skip (without advancing the progress bar) when `'ORGA ID*'` is
filled or when the item id is in the processed-id set; otherwise build
title and link, fetch the blocks, extract the identifier; when one is
found, write it back and append a record only when both the write and the
subsequent verification succeed; finally advance the progress bar by one. -/
def processItem (env : Env) (processed : List String) (item : Item) : Except Unit StepResult :=
  if isFilled item.orgaId then .ok ⟨none, false, 0⟩
  else if processed.contains item.id then .ok ⟨none, false, 0⟩
  else
    match env.fetchBlocks item.id with
    | none => .ok ⟨none, true, 1⟩
    | some blocks =>
      match extract_org_id_from_blocks blocks with
      | .error e => .error e
      | .ok none => .ok ⟨none, true, 1⟩
      | .ok (some oid) =>
        if update_card_property env item.id oid then
          if verify_card_property env item.id oid then
            .ok ⟨some ⟨cardLink item.id, titleOf item, oid, "Corpus"⟩, true, 1⟩
          else .ok ⟨none, true, 1⟩
        else .ok ⟨none, true, 1⟩

/-- Model of `extract_card_info` of `Ingestor.py`: fold of `processItem`
over one page of items; an exception discards the partial results. -/
def extract_card_info (env : Env) (processed : List String) :
    List Item → Except Unit (List Record × Nat)
  | [] => .ok ([], 0)
  | item :: rest =>
    match processItem env processed item with
    | .error e => .error e
    | .ok s =>
      match extract_card_info env processed rest with
      | .error e => .error e
      | .ok (recs, n) => .ok (s.record.toList ++ recs, s.progress + n)

/-- The `while True` pagination loop of `main` in `Ingestor.py`; the
processed-id set is read-only for the whole run. -/
def loop (listing : Option String → Option QueryResp) (env : Env) (processed : List String) :
    Nat → Option String → Except Unit LoopOut
  | 0, _ => .ok ⟨[], 0, [], .outOfFuel⟩
  | fuel + 1, cursor =>
    match get_database_items listing cursor with
    | none => .ok ⟨[], 0, [], .pageFailed⟩
    | some resp =>
      match extract_card_info env processed resp.results with
      | .error e => .error e
      | .ok (recs, n) =>
        if resp.has_more then
          match loop listing env processed fuel resp.next_cursor with
          | .error e => .error e
          | .ok out => .ok ⟨recs ++ out.records, n + out.progress, resp.results ++ out.delivered, out.stop⟩
        else .ok ⟨recs, n, resp.results, .done⟩

/-- The trailing path segment of a link, as extracted by
`df_existing['Link'].str.extract(r'([^/]+)$')`: the maximal suffix of
non-slash characters. -/
def trailingSegment (s : String) : String :=
  String.mk ((s.data.reverse.takeWhile (fun c => c ≠ '/')).reverse)

/-- Seeding of the processed-id set at startup: when the fixed output file
pre-exists, the trailing path segment of each row's `Link`; otherwise the
empty set. The rows of the pre-existing file are passed already parsed. -/
def processedFrom : Option (List Record) → List String
  | none => []
  | some rows => rows.map (fun r => trailingSegment r.link)

/-- Model of `main` in `Ingestor.py`: seed the processed-id set once from
the pre-existing export file (if any), abort on a failed initial
cursor-less listing, run the pagination loop, and otherwise reach the
export step with the accumulated records and progress. -/
def main (listing : Option String → Option QueryResp) (env : Env)
    (existing : Option (List Record)) (fuel : Nat) : MainResult :=
  match get_database_items listing none with
  | none => .abortInitial
  | some _ =>
    match loop listing env (processedFrom existing) fuel none with
    | .error _ => .crashed
    | .ok out =>
      match out.stop with
      | .outOfFuel => .diverged
      | _ => .exported out.records out.progress

/-- The export step of `Ingestor.py`: when records were accumulated,
overwrite the fixed output file with the CSV of exactly this run's records
(header row then one row per record) and print the success message;
otherwise write nothing and print a distinct message. -/
def exportStep (recs : List Record) : ExportOut :=
  if recs.isEmpty then
    ⟨none, "No cards were found without the 'ORGA ID*' property."⟩
  else
    ⟨some (csvHeader :: recs.map toCsvRow), "Card information has been written to the fixed output CSV file."⟩

end Ingestor

/-- Character immediately before position `i` of the text, `none` at the
start of the string. -/
def prevCharAt (cs : List Char) (i : Nat) : Option Char :=
  if i = 0 then none else cs.get? (i - 1)

/-- Spec-side description of a pattern occurrence: the match attempt of
the fixed 8-4-4-4-12 pattern exactly at position `i` of the text. -/
def uuidMatchAt (cs : List Char) (i : Nat) : Option String :=
  tryUuidAt (prevCharAt cs i) (cs.drop i)

/-- Spec-side description of the first match: the occurrence at the
earliest position of the text, positions tried in increasing order. -/
def firstUuidSpec (s : String) : Option String :=
  (List.range s.data.length).findSome? (fun i => uuidMatchAt s.data i)

/-- Concatenated plain text of a block under its own variant tag (empty
for a malformed block). -/
def specBlockText (b : Block) : String :=
  match b.type with
  | some t =>
    match b.fields.lookup t with
    | some bd => blockText bd
    | none => ""
  | none => ""

/-- Modelled from the spec: the Identifier Extractor returns the
identifier occurring earliest within the earliest block, in sequence
order, whose variant tag is recognized and whose concatenated plain-text
runs contain any match; blocks of unrecognized variants never contribute;
`none` when no recognized block matches. -/
def extractSpec : List Block → Option String
  | [] => none
  | b :: rest =>
    if recognizedTypes.contains (b.type.getD "") then
      match firstUuidSpec (specBlockText b) with
      | some m => some m
      | none => extractSpec rest
    else extractSpec rest

/-- A block on which the source's direct subscripts cannot raise: the
`'type'` key is present and the key it names is present. -/
def wfBlock (b : Block) : Bool :=
  match b.type with
  | some t => (b.fields.lookup t).isSome
  | none => false

/-- The 8-4-4-4-12 hex-grouped shape of a character list. -/
def uuidGroups (m : List Char) : Prop :=
  ∃ g1 g2 g3 g4 g5 : List Char,
    m = g1 ++ '-' :: (g2 ++ '-' :: (g3 ++ '-' :: (g4 ++ '-' :: g5))) ∧
    g1.length = 8 ∧ g2.length = 4 ∧ g3.length = 4 ∧ g4.length = 4 ∧ g5.length = 12 ∧
    g1.all isHexChar ∧ g2.all isHexChar ∧ g3.all isHexChar ∧ g4.all isHexChar ∧ g5.all isHexChar

/-- Entry whose target field is already filled, used to exhibit that a
skipped entry does not advance the progress indicator. -/
def c4Item : Item := ⟨"a", some ["filled"], none⟩

/-- Environment for the C4 counterexample (never reached past the skip). -/
def c4Env : Env := ⟨fun _ => none, fun _ _ => false, fun _ => none⟩

/-- One-page listing delivering only the filled entry. -/
def c4Listing : Option String → Option QueryResp := fun _ => some ⟨[c4Item], false, none⟩

/-- Entry without the target field set, whose blocks-fetch fails. -/
def c4wItem : Item := ⟨"b", none, none⟩

/-- One-page listing delivering one skipped and one processed entry. -/
def c4wListing : Option String → Option QueryResp :=
  fun _ => some ⟨[c4Item, c4wItem], false, none⟩

/-- Entry with an empty target field, delivered twice by the paginated
listing. -/
def c6Item : Item := ⟨"11111111-2222-3333-4444-555555555555", none, none⟩

/-- A paragraph block holding an identifier. -/
def c6Block : Block := ⟨some "paragraph", [("paragraph", ⟨some ["aaaabbbb-cccc-dddd-eeee-ffff00001111"]⟩)]⟩

/-- Environment whose blocks-fetch always returns the identifier block. -/
def c6Env : Env := ⟨fun _ => some [c6Block], fun _ _ => false, fun _ => none⟩

/-- A two-page listing that delivers the same entry on both pages. -/
def c6Listing : Option String → Option QueryResp :=
  fun c =>
    match c with
    | none => some ⟨[c6Item], true, some "cur"⟩
    | some _ => some ⟨[c6Item], false, none⟩

/-- The record produced for the duplicated entry. -/
def c6Rec : Record :=
  ⟨cardLink "11111111-2222-3333-4444-555555555555", "Title not found",
   "aaaabbbb-cccc-dddd-eeee-ffff00001111", "Corpus"⟩

/-- One-page listing delivering two distinct entries: one skipped, one
recorded. -/
def c6wListing : Option String → Option QueryResp :=
  fun _ => some ⟨[c4Item, c6Item], false, none⟩

/-- Entry whose blocks contain a malformed block: its `'type'` names a key
the block does not carry. -/
def c7Item : Item := ⟨"cc", none, none⟩

/-- Environment returning the malformed block, making
`extract_org_id_from_blocks` raise. -/
def c7Env : Env := ⟨fun _ => some [⟨some "paragraph", []⟩], fun _ _ => false, fun _ => none⟩

/-- One-page listing delivering the entry with malformed blocks. -/
def c7Listing : Option String → Option QueryResp := fun _ => some ⟨[c7Item], false, none⟩

/-- One-page listing delivering one skipped entry, with a successful
initial listing. -/
def c7wListing : Option String → Option QueryResp := fun _ => some ⟨[c4Item], false, none⟩

/-- Record exported by a previous run, seeding the processed-id set. -/
def c9Old : Record := ⟨"https://www.notion.so/deadbeef", "Old", "o-id", "Corpus"⟩

/-- Entry processed by the current run. -/
def c9Item : Item := ⟨"ee", none, none⟩

/-- Environment for the C9 witness run: blocks hold an identifier, the
write succeeds and the verification re-read confirms it. -/
def c9Env : Env :=
  ⟨fun _ => some [⟨some "paragraph", [("paragraph", ⟨some ["aaaabbbb-cccc-dddd-eeee-ffff00001111"]⟩)]⟩],
   fun _ _ => true,
   fun _ => some ⟨some ["aaaabbbb-cccc-dddd-eeee-ffff00001111"]⟩⟩

/-- One-page listing for the C9 witness run. -/
def c9Listing : Option String → Option QueryResp := fun _ => some ⟨[c9Item], false, none⟩

/-- The record produced by the current C9 witness run. -/
def c9New : Record :=
  ⟨cardLink "ee", "Title not found", "aaaabbbb-cccc-dddd-eeee-ffff00001111", "Corpus"⟩

/-- Hyphenated entry id, as the remote API delivers them. -/
def c1Id : String := "11111111-2222-3333-4444-555555555555"

/-- Identifier embedded in the entry's blocks. -/
def c1Uuid : String := "aaaabbbb-cccc-dddd-eeee-ffff00001111"

/-- Entry with an empty target field. -/
def c1Item : Item := ⟨c1Id, none, none⟩

/-- Environment for the C1 runs: blocks hold the identifier, writes
succeed and the verification re-read confirms them. -/
def c1Env : Env :=
  ⟨fun _ => some [⟨some "paragraph", [("paragraph", ⟨some [c1Uuid]⟩)]⟩],
   fun _ _ => true,
   fun _ => some ⟨some [c1Uuid]⟩⟩

/-- One-page listing delivering the hyphenated-id entry. -/
def c1Listing : Option String → Option QueryResp := fun _ => some ⟨[c1Item], false, none⟩

/-- The record the first C1 run exports for the entry. -/
def c1Rec : Record := ⟨cardLink c1Id, "Title not found", c1Uuid, "Corpus"⟩

/-- Concrete block sequence: an unrecognized variant carrying an
identifier, a recognized block without a match, then a recognized block
carrying an identifier. -/
def c3wBlocks : List Block :=
  [⟨some "code", [("code", ⟨some ["aaaabbbb-cccc-dddd-eeee-ffff00001111"]⟩)]⟩,
   ⟨some "quote", [("quote", ⟨some ["no id here"]⟩)]⟩,
   ⟨some "paragraph", [("paragraph", ⟨some ["see 11111111-2222-3333-4444-555555555555"]⟩)]⟩]

example : firstUuid "see ref a1b2c3d4-e5f6-7890-abcd-ef1234567890 for details" =
    some "a1b2c3d4-e5f6-7890-abcd-ef1234567890" := by rfl

example : firstUuid "xa1b2c3d4-e5f6-7890-abcd-ef1234567890" = none := by rfl

example : firstUuid "a1b2c3d4-e5f6-7890-abcd-ef1234567890x zz 00000000-0000-0000-0000-000000000000" =
    some "00000000-0000-0000-0000-000000000000" := by rfl

example : firstUuidSpec "see ref a1b2c3d4-e5f6-7890-abcd-ef1234567890 for details" =
    some "a1b2c3d4-e5f6-7890-abcd-ef1234567890" := by rfl

theorem takeHexN_spec : ∀ (n : Nat) (cs h r : List Char), takeHexN n cs = some (h, r) →
    h.length = n ∧ h.all isHexChar = true ∧ cs = h ++ r := by
  intro n
  induction n with
  | zero =>
    intro cs h r hEq
    simp only [takeHexN, Option.some.injEq, Prod.mk.injEq] at hEq
    obtain ⟨h1, h2⟩ := hEq
    subst h1; subst h2
    simp
  | succ n ih =>
    intro cs h r hEq
    cases cs with
    | nil => simp [takeHexN] at hEq
    | cons c cs =>
      simp only [takeHexN] at hEq
      by_cases hc : isHexChar c
      · rw [if_pos hc] at hEq
        cases hTk : takeHexN n cs with
        | none => rw [hTk] at hEq; simp at hEq
        | some pr =>
          obtain ⟨h2, r2⟩ := pr
          rw [hTk] at hEq
          simp only [Option.some.injEq, Prod.mk.injEq] at hEq
          obtain ⟨hh, hr⟩ := hEq
          subst hh; subst hr
          obtain ⟨l1, l2, l3⟩ := ih cs h2 r2 hTk
          refine ⟨by simp [l1], by simp [List.all_cons, hc, l2], by simp [l3]⟩
      · rw [if_neg hc] at hEq; simp at hEq

theorem matchDash_spec (cs r : List Char) (h : matchDash cs = some r) : cs = '-' :: r := by
  unfold matchDash at h
  split at h
  · simp only [Option.some.injEq] at h
    subst h; rfl
  · simp at h

theorem matchUuidCore_groups (cs m r : List Char) (h : matchUuidCore cs = some (m, r)) :
    uuidGroups m := by
  unfold matchUuidCore at h
  cases hTk1 : takeHexN 8 cs with
  | none => simp [hTk1] at h
  | some p1 =>
  obtain ⟨g1, r1⟩ := p1
  simp only [hTk1] at h
  cases hD1 : matchDash r1 with
  | none => simp [hD1] at h
  | some r2 =>
  simp only [hD1] at h
  cases hTk2 : takeHexN 4 r2 with
  | none => simp [hTk2] at h
  | some p2 =>
  obtain ⟨g2, r3⟩ := p2
  simp only [hTk2] at h
  cases hD2 : matchDash r3 with
  | none => simp [hD2] at h
  | some r4 =>
  simp only [hD2] at h
  cases hTk3 : takeHexN 4 r4 with
  | none => simp [hTk3] at h
  | some p3 =>
  obtain ⟨g3, r5⟩ := p3
  simp only [hTk3] at h
  cases hD3 : matchDash r5 with
  | none => simp [hD3] at h
  | some r6 =>
  simp only [hD3] at h
  cases hTk4 : takeHexN 4 r6 with
  | none => simp [hTk4] at h
  | some p4 =>
  obtain ⟨g4, r7⟩ := p4
  simp only [hTk4] at h
  cases hD4 : matchDash r7 with
  | none => simp [hD4] at h
  | some r8 =>
  simp only [hD4] at h
  cases hTk5 : takeHexN 12 r8 with
  | none => simp [hTk5] at h
  | some p5 =>
  obtain ⟨g5, r9⟩ := p5
  simp only [hTk5] at h
  simp only [Option.some.injEq, Prod.mk.injEq] at h
  obtain ⟨hm, hrr⟩ := h
  obtain ⟨q1, w1, e1⟩ := takeHexN_spec 8 cs g1 r1 hTk1
  obtain ⟨q2, w2, e2⟩ := takeHexN_spec 4 r2 g2 r3 hTk2
  obtain ⟨q3, w3, e3⟩ := takeHexN_spec 4 r4 g3 r5 hTk3
  obtain ⟨q4, w4, e4⟩ := takeHexN_spec 4 r6 g4 r7 hTk4
  obtain ⟨q5, w5, e5⟩ := takeHexN_spec 12 r8 g5 r9 hTk5
  exact ⟨g1, g2, g3, g4, g5, hm.symm, q1, q2, q3, q4, q5, w1, w2, w3, w4, w5⟩

theorem tryUuidAt_groups (prev : Option Char) (cs : List Char) (m : String)
    (h : tryUuidAt prev cs = some m) : uuidGroups m.data := by
  unfold tryUuidAt at h
  by_cases hb : boundaryBefore prev = true
  · rw [if_pos hb] at h
    cases hCore : matchUuidCore cs with
    | none => simp [hCore] at h
    | some p =>
      obtain ⟨mm, r⟩ := p
      simp only [hCore] at h
      by_cases hba : boundaryAfter r = true
      · rw [if_pos hba] at h
        simp only [Option.some.injEq] at h
        subst h
        exact matchUuidCore_groups cs mm r hCore
      · rw [if_neg hba] at h; simp at h
  · rw [if_neg hb] at h; simp at h

theorem findSome?_cons_some {α β : Type} (f : α → Option β) (a : α) (l : List α) (b : β)
    (h : f a = some b) : (a :: l).findSome? f = some b := by
  simp [List.findSome?, h]

theorem findSome?_cons_none {α β : Type} (f : α → Option β) (a : α) (l : List α)
    (h : f a = none) : (a :: l).findSome? f = l.findSome? f := by
  simp [List.findSome?, h]

theorem findSome?_map_comp {α β γ : Type} (g : α → β) (f : β → Option γ) :
    ∀ l : List α, (l.map g).findSome? f = l.findSome? (fun a => f (g a)) := by
  intro l
  induction l with
  | nil => rfl
  | cons a l ih =>
    cases hfa : f (g a) with
    | some b =>
      rw [List.map_cons, findSome?_cons_some f (g a) _ b hfa, findSome?_cons_some _ a l b hfa]
    | none =>
      rw [List.map_cons, findSome?_cons_none f (g a) _ hfa, findSome?_cons_none _ a l hfa, ih]

theorem findSome?_eq_some_exists {α β : Type} (f : α → Option β) :
    ∀ (l : List α) (b : β), l.findSome? f = some b → ∃ a, a ∈ l ∧ f a = some b := by
  intro l
  induction l with
  | nil => intro b h; simp [List.findSome?] at h
  | cons a l ih =>
    intro b h
    cases hfa : f a with
    | some c =>
      rw [findSome?_cons_some f a l c hfa] at h
      simp only [Option.some.injEq] at h
      subst h
      exact ⟨a, List.mem_cons_self a l, hfa⟩
    | none =>
      rw [findSome?_cons_none f a l hfa] at h
      obtain ⟨x, hx, hfx⟩ := ih b h
      exact ⟨x, List.mem_cons_of_mem a hx, hfx⟩

theorem findUuidAux_eq_findSome? :
    ∀ (cs : List Char) (prev : Option Char), findUuidAux prev cs =
      (List.range cs.length).findSome?
        (fun i => tryUuidAt (if i = 0 then prev else cs.get? (i - 1)) (cs.drop i)) := by
  intro cs
  induction cs with
  | nil => intro prev; rfl
  | cons c rest ih =>
    intro prev
    rw [List.length_cons, List.range_succ_eq_map]
    cases hTry : tryUuidAt prev (c :: rest) with
    | some m =>
      have h0 : (fun i => tryUuidAt (if i = 0 then prev else (c :: rest).get? (i - 1))
          ((c :: rest).drop i)) 0 = some m := by simpa using hTry
      rw [findSome?_cons_some _ 0 _ m h0]
      simp [findUuidAux, hTry]
    | none =>
      have h0 : (fun i => tryUuidAt (if i = 0 then prev else (c :: rest).get? (i - 1))
          ((c :: rest).drop i)) 0 = none := by simpa using hTry
      rw [findSome?_cons_none _ 0 _ h0, findSome?_map_comp]
      have hfun : (fun i => tryUuidAt (if Nat.succ i = 0 then prev else (c :: rest).get? (Nat.succ i - 1))
          ((c :: rest).drop (Nat.succ i)))
          = (fun i => tryUuidAt (if i = 0 then some c else rest.get? (i - 1)) (rest.drop i)) := by
        funext i
        cases i with
        | zero => rfl
        | succ j => rfl
      rw [hfun]
      have : findUuidAux prev (c :: rest) = findUuidAux (some c) rest := by
        simp [findUuidAux, hTry]
      rw [this, ih (some c)]

theorem firstUuid_eq_spec (s : String) : firstUuid s = firstUuidSpec s := by
  unfold firstUuid firstUuidSpec
  rw [findUuidAux_eq_findSome?]
  congr 1

theorem extract_eq_extractSpec :
    ∀ blocks : List Block, (∀ b ∈ blocks, wfBlock b = true) →
      extract_org_id_from_blocks blocks = .ok (extractSpec blocks) := by
  intro blocks
  induction blocks with
  | nil => intro _; rfl
  | cons b rest ih =>
    intro h
    have hb := h b (List.mem_cons_self b rest)
    have hrest : ∀ x ∈ rest, wfBlock x = true :=
      fun x hx => h x (List.mem_cons_of_mem b hx)
    unfold wfBlock at hb
    cases hbt : b.type with
    | none => simp [hbt] at hb
    | some t =>
      simp only [hbt] at hb
      cases hlk : b.fields.lookup t with
      | none => simp [hlk] at hb
      | some bd =>
        have hText : specBlockText b = blockText bd := by
          simp [specBlockText, hbt, hlk]
        unfold extract_org_id_from_blocks extractSpec
        simp only [hbt, hlk, hText, Option.getD_some]
        by_cases hRec : recognizedTypes.contains t = true
        · rw [if_pos hRec, if_pos hRec, ← firstUuid_eq_spec]
          cases firstUuid (blockText bd) with
          | some m => rfl
          | none => exact ih hrest
        · rw [if_neg hRec, if_neg hRec]
          exact ih hrest

theorem firstUuidSpec_groups (s : String) (m : String)
    (h : firstUuidSpec s = some m) : uuidGroups m.data := by
  unfold firstUuidSpec at h
  obtain ⟨i, _, hi⟩ := findSome?_eq_some_exists _ _ _ h
  exact tryUuidAt_groups _ _ _ hi

theorem extractSpec_groups :
    ∀ blocks : List Block, ∀ m : String, extractSpec blocks = some m → uuidGroups m.data := by
  intro blocks
  induction blocks with
  | nil => intro m h; simp [extractSpec] at h
  | cons b rest ih =>
    intro m h
    unfold extractSpec at h
    by_cases hRec : recognizedTypes.contains (b.type.getD "") = true
    · rw [if_pos hRec] at h
      cases hF : firstUuidSpec (specBlockText b) with
      | some m2 =>
        rw [hF] at h
        simp only [Option.some.injEq] at h
        subst h
        exact firstUuidSpec_groups _ _ hF
      | none =>
        rw [hF] at h
        exact ih m h
    · rw [if_neg hRec] at h
      exact ih m h

/-- Claim C3: for every sequence of Content Blocks (well-formed enough for
the source's direct key accesses not to raise), the Identifier Extractor
returns exactly the spec-described value: the first match, by position,
within the earliest block in sequence order whose variant tag is
recognized and whose concatenated plain-text runs contain any match;
blocks of unrecognized variants never contribute; `none` (not an error)
when no recognized block matches; and any returned identifier has the
fixed 8-4-4-4-12 hex-grouped shape. -/
theorem claim_C3 (blocks : List Block) (h : ∀ b ∈ blocks, wfBlock b = true) :
    extract_org_id_from_blocks blocks = .ok (extractSpec blocks)
    ∧ ∀ m : String, extractSpec blocks = some m → uuidGroups m.data :=
  ⟨extract_eq_extractSpec blocks h, fun m hm => extractSpec_groups blocks m hm⟩

/-- Claim C3 witness: the theorem applied at a concrete block sequence;
the unrecognized block's identifier does not contribute, and the
recognized paragraph's identifier is returned. -/
theorem claim_C3_witness :
    extract_org_id_from_blocks c3wBlocks = .ok (extractSpec c3wBlocks)
    ∧ extractSpec c3wBlocks = some "11111111-2222-3333-4444-555555555555" :=
  ⟨(claim_C3 c3wBlocks (by decide)).1, by decide⟩


/-- An item the read-only variant does not skip. -/
def notSkippedD (item : Item) : Bool := !isFilled item.orgaId

/-- An item the write-back variant does not skip. -/
def notSkippedI (processed : List String) (item : Item) : Bool :=
  !isFilled item.orgaId && !processed.contains item.id

theorem processItemD_shape (env : Env) (item : Item) (s : StepResult)
    (hP : DataExtractor.processItem env item = .ok s) :
    (isFilled item.orgaId = true ∧ s = ⟨none, false, 0⟩)
    ∨ (isFilled item.orgaId = false ∧ s.progress = 1 ∧ s.fetched = true ∧
        (s.record = none ∨ ∃ r, s.record = some r ∧ r.link = cardLink item.id)) := by
  unfold DataExtractor.processItem at hP
  cases hfb : isFilled item.orgaId with
  | true =>
    rw [if_pos hfb] at hP
    simp only [Except.ok.injEq] at hP
    exact Or.inl ⟨rfl, hP.symm⟩
  | false =>
    rw [if_neg (by simp [hfb])] at hP
    cases hFb : env.fetchBlocks item.id with
    | none =>
      simp only [hFb, Except.ok.injEq] at hP
      subst hP
      exact Or.inr ⟨rfl, rfl, rfl, Or.inl rfl⟩
    | some blocks =>
      simp only [hFb] at hP
      cases hEx : extract_org_id_from_blocks blocks with
      | error e => simp [hEx] at hP
      | ok oopt =>
        simp only [hEx] at hP
        cases oopt with
        | none =>
          simp only [Except.ok.injEq] at hP
          subst hP
          exact Or.inr ⟨rfl, rfl, rfl, Or.inl rfl⟩
        | some oid =>
          simp only [Except.ok.injEq] at hP
          subst hP
          exact Or.inr ⟨rfl, rfl, rfl, Or.inr ⟨_, rfl, rfl⟩⟩

theorem processItemI_shape (env : Env) (processed : List String) (item : Item) (s : StepResult)
    (hP : Ingestor.processItem env processed item = .ok s) :
    (notSkippedI processed item = false ∧ s = ⟨none, false, 0⟩)
    ∨ (notSkippedI processed item = true ∧ s.progress = 1 ∧ s.fetched = true ∧
        (s.record = none ∨ ∃ r, s.record = some r ∧ r.link = cardLink item.id)) := by
  unfold Ingestor.processItem at hP
  cases hfb : isFilled item.orgaId with
  | true =>
    rw [if_pos hfb] at hP
    simp only [Except.ok.injEq] at hP
    exact Or.inl ⟨by unfold notSkippedI; rw [hfb]; rfl, hP.symm⟩
  | false =>
    rw [if_neg (by simp [hfb])] at hP
    cases hct : processed.contains item.id with
    | true =>
      rw [if_pos hct] at hP
      simp only [Except.ok.injEq] at hP
      exact Or.inl ⟨by unfold notSkippedI; rw [hfb, hct]; rfl, hP.symm⟩
    | false =>
      rw [if_neg (by rw [hct]; exact Bool.false_ne_true)] at hP
      have hns : notSkippedI processed item = true := by unfold notSkippedI; rw [hfb, hct]; rfl
      cases hFb : env.fetchBlocks item.id with
      | none =>
        simp only [hFb, Except.ok.injEq] at hP
        subst hP
        exact Or.inr ⟨hns, rfl, rfl, Or.inl rfl⟩
      | some blocks =>
        simp only [hFb] at hP
        cases hEx : extract_org_id_from_blocks blocks with
        | error e => simp [hEx] at hP
        | ok oopt =>
          simp only [hEx] at hP
          cases oopt with
          | none =>
            simp only [Except.ok.injEq] at hP
            subst hP
            exact Or.inr ⟨hns, rfl, rfl, Or.inl rfl⟩
          | some oid =>
            dsimp only at hP
            cases hUp : Ingestor.update_card_property env item.id oid with
            | false =>
              rw [if_neg (by simp [hUp])] at hP
              simp only [Except.ok.injEq] at hP
              subst hP
              exact Or.inr ⟨hns, rfl, rfl, Or.inl rfl⟩
            | true =>
              rw [if_pos hUp] at hP
              cases hVf : Ingestor.verify_card_property env item.id oid with
              | false =>
                rw [if_neg (by simp [hVf])] at hP
                simp only [Except.ok.injEq] at hP
                subst hP
                exact Or.inr ⟨hns, rfl, rfl, Or.inl rfl⟩
              | true =>
                rw [if_pos hVf] at hP
                simp only [Except.ok.injEq] at hP
                subst hP
                exact Or.inr ⟨hns, rfl, rfl, Or.inr ⟨_, rfl, rfl⟩⟩

theorem extractD_progress (env : Env) :
    ∀ (items : List Item) (recs : List Record) (n : Nat),
      DataExtractor.extract_card_info env items = .ok (recs, n) →
      n = items.countP notSkippedD := by
  intro items
  induction items with
  | nil =>
    intro recs n h
    simp only [DataExtractor.extract_card_info, Except.ok.injEq, Prod.mk.injEq] at h
    simp [← h.2]
  | cons item rest ih =>
    intro recs n h
    unfold DataExtractor.extract_card_info at h
    cases hP : DataExtractor.processItem env item with
    | error e => simp [hP] at h
    | ok s =>
      simp only [hP] at h
      cases hR : DataExtractor.extract_card_info env rest with
      | error e => simp [hR] at h
      | ok pr =>
        obtain ⟨recs2, n2⟩ := pr
        simp only [hR, Except.ok.injEq, Prod.mk.injEq] at h
        obtain ⟨_, hn⟩ := h
        rw [List.countP_cons, ← ih recs2 n2 hR, ← hn]
        rcases processItemD_shape env item s hP with ⟨hf, hs⟩ | ⟨hf, hp, _, _⟩
        · have : notSkippedD item = false := by unfold notSkippedD; rw [hf]; rfl
          rw [this, hs]
          simp
        · have : notSkippedD item = true := by unfold notSkippedD; rw [hf]; rfl
          rw [this, hp]
          simp [Nat.add_comm]

theorem extractI_progress (env : Env) (processed : List String) :
    ∀ (items : List Item) (recs : List Record) (n : Nat),
      Ingestor.extract_card_info env processed items = .ok (recs, n) →
      n = items.countP (notSkippedI processed) := by
  intro items
  induction items with
  | nil =>
    intro recs n h
    simp only [Ingestor.extract_card_info, Except.ok.injEq, Prod.mk.injEq] at h
    simp [← h.2]
  | cons item rest ih =>
    intro recs n h
    unfold Ingestor.extract_card_info at h
    cases hP : Ingestor.processItem env processed item with
    | error e => simp [hP] at h
    | ok s =>
      simp only [hP] at h
      cases hR : Ingestor.extract_card_info env processed rest with
      | error e => simp [hR] at h
      | ok pr =>
        obtain ⟨recs2, n2⟩ := pr
        simp only [hR, Except.ok.injEq, Prod.mk.injEq] at h
        obtain ⟨_, hn⟩ := h
        rw [List.countP_cons, ← ih recs2 n2 hR, ← hn]
        rcases processItemI_shape env processed item s hP with ⟨hf, hs⟩ | ⟨hf, hp, _, _⟩
        · rw [hf, hs]
          simp
        · rw [hf, hp]
          simp [Nat.add_comm]

theorem extractD_links (env : Env) :
    ∀ (items : List Item) (recs : List Record) (n : Nat),
      DataExtractor.extract_card_info env items = .ok (recs, n) →
      (recs.map (fun r => r.link)).Sublist (items.map (fun it => cardLink it.id)) := by
  intro items
  induction items with
  | nil =>
    intro recs n h
    simp only [DataExtractor.extract_card_info, Except.ok.injEq, Prod.mk.injEq] at h
    simp [← h.1]
  | cons item rest ih =>
    intro recs n h
    unfold DataExtractor.extract_card_info at h
    cases hP : DataExtractor.processItem env item with
    | error e => simp [hP] at h
    | ok s =>
      simp only [hP] at h
      cases hR : DataExtractor.extract_card_info env rest with
      | error e => simp [hR] at h
      | ok pr =>
        obtain ⟨recs2, n2⟩ := pr
        simp only [hR, Except.ok.injEq, Prod.mk.injEq] at h
        obtain ⟨hrecs, _⟩ := h
        have hsub := ih recs2 n2 hR
        have hord : (s.record = none) ∨ (∃ r, s.record = some r ∧ r.link = cardLink item.id) := by
          rcases processItemD_shape env item s hP with ⟨_, hs⟩ | ⟨_, _, _, hrec⟩
          · exact Or.inl (by rw [hs])
          · exact hrec
        rw [← hrecs, List.map_cons]
        rcases hord with hnone | ⟨r, hsome, hlink⟩
        · rw [hnone]
          simp only [Option.toList_none, List.nil_append]
          exact hsub.cons (cardLink item.id)
        · rw [hsome]
          simp only [Option.toList_some, List.singleton_append, List.map_cons]
          rw [hlink]
          exact hsub.cons₂ (cardLink item.id)

theorem extractI_links (env : Env) (processed : List String) :
    ∀ (items : List Item) (recs : List Record) (n : Nat),
      Ingestor.extract_card_info env processed items = .ok (recs, n) →
      (recs.map (fun r => r.link)).Sublist (items.map (fun it => cardLink it.id)) := by
  intro items
  induction items with
  | nil =>
    intro recs n h
    simp only [Ingestor.extract_card_info, Except.ok.injEq, Prod.mk.injEq] at h
    simp [← h.1]
  | cons item rest ih =>
    intro recs n h
    unfold Ingestor.extract_card_info at h
    cases hP : Ingestor.processItem env processed item with
    | error e => simp [hP] at h
    | ok s =>
      simp only [hP] at h
      cases hR : Ingestor.extract_card_info env processed rest with
      | error e => simp [hR] at h
      | ok pr =>
        obtain ⟨recs2, n2⟩ := pr
        simp only [hR, Except.ok.injEq, Prod.mk.injEq] at h
        obtain ⟨hrecs, _⟩ := h
        have hsub := ih recs2 n2 hR
        have hord : (s.record = none) ∨ (∃ r, s.record = some r ∧ r.link = cardLink item.id) := by
          rcases processItemI_shape env processed item s hP with ⟨_, hs⟩ | ⟨_, _, _, hrec⟩
          · exact Or.inl (by rw [hs])
          · exact hrec
        rw [← hrecs, List.map_cons]
        rcases hord with hnone | ⟨r, hsome, hlink⟩
        · rw [hnone]
          simp only [Option.toList_none, List.nil_append]
          exact hsub.cons (cardLink item.id)
        · rw [hsome]
          simp only [Option.toList_some, List.singleton_append, List.map_cons]
          rw [hlink]
          exact hsub.cons₂ (cardLink item.id)

theorem loopD_progress (listing : Option String → Option QueryResp) (env : Env) :
    ∀ (fuel : Nat) (cursor : Option String) (out : LoopOut),
      DataExtractor.loop listing env fuel cursor = .ok out →
      out.progress = out.delivered.countP notSkippedD := by
  intro fuel
  induction fuel with
  | zero =>
    intro cursor out h
    simp only [DataExtractor.loop, Except.ok.injEq] at h
    rw [← h]
    simp
  | succ fuel ih =>
    intro cursor out h
    unfold DataExtractor.loop at h
    cases hPg : get_database_items listing cursor with
    | none =>
      simp only [hPg, Except.ok.injEq] at h
      rw [← h]
      simp
    | some resp =>
      simp only [hPg] at h
      cases hEx : DataExtractor.extract_card_info env resp.results with
      | error e => simp [hEx] at h
      | ok pr =>
        obtain ⟨recs, n⟩ := pr
        simp only [hEx] at h
        cases hm : resp.has_more with
        | true =>
          rw [if_pos hm] at h
          cases hLp : DataExtractor.loop listing env fuel resp.next_cursor with
          | error e => simp [hLp] at h
          | ok out2 =>
            simp only [hLp, Except.ok.injEq] at h
            rw [← h]
            simp only [List.countP_append]
            rw [extractD_progress env resp.results recs n hEx, ih resp.next_cursor out2 hLp]
        | false =>
          rw [if_neg (by rw [hm]; exact Bool.false_ne_true)] at h
          simp only [Except.ok.injEq] at h
          rw [← h]
          exact extractD_progress env resp.results recs n hEx

theorem loopI_progress (listing : Option String → Option QueryResp) (env : Env)
    (processed : List String) :
    ∀ (fuel : Nat) (cursor : Option String) (out : LoopOut),
      Ingestor.loop listing env processed fuel cursor = .ok out →
      out.progress = out.delivered.countP (notSkippedI processed) := by
  intro fuel
  induction fuel with
  | zero =>
    intro cursor out h
    simp only [Ingestor.loop, Except.ok.injEq] at h
    rw [← h]
    simp
  | succ fuel ih =>
    intro cursor out h
    unfold Ingestor.loop at h
    cases hPg : get_database_items listing cursor with
    | none =>
      simp only [hPg, Except.ok.injEq] at h
      rw [← h]
      simp
    | some resp =>
      simp only [hPg] at h
      cases hEx : Ingestor.extract_card_info env processed resp.results with
      | error e => simp [hEx] at h
      | ok pr =>
        obtain ⟨recs, n⟩ := pr
        simp only [hEx] at h
        cases hm : resp.has_more with
        | true =>
          rw [if_pos hm] at h
          cases hLp : Ingestor.loop listing env processed fuel resp.next_cursor with
          | error e => simp [hLp] at h
          | ok out2 =>
            simp only [hLp, Except.ok.injEq] at h
            rw [← h]
            simp only [List.countP_append]
            rw [extractI_progress env processed resp.results recs n hEx, ih resp.next_cursor out2 hLp]
        | false =>
          rw [if_neg (by rw [hm]; exact Bool.false_ne_true)] at h
          simp only [Except.ok.injEq] at h
          rw [← h]
          exact extractI_progress env processed resp.results recs n hEx

theorem loopD_links (listing : Option String → Option QueryResp) (env : Env) :
    ∀ (fuel : Nat) (cursor : Option String) (out : LoopOut),
      DataExtractor.loop listing env fuel cursor = .ok out →
      (out.records.map (fun r => r.link)).Sublist (out.delivered.map (fun it => cardLink it.id)) := by
  intro fuel
  induction fuel with
  | zero =>
    intro cursor out h
    simp only [DataExtractor.loop, Except.ok.injEq] at h
    rw [← h]
    simp
  | succ fuel ih =>
    intro cursor out h
    unfold DataExtractor.loop at h
    cases hPg : get_database_items listing cursor with
    | none =>
      simp only [hPg, Except.ok.injEq] at h
      rw [← h]
      simp
    | some resp =>
      simp only [hPg] at h
      cases hEx : DataExtractor.extract_card_info env resp.results with
      | error e => simp [hEx] at h
      | ok pr =>
        obtain ⟨recs, n⟩ := pr
        simp only [hEx] at h
        cases hm : resp.has_more with
        | true =>
          rw [if_pos hm] at h
          cases hLp : DataExtractor.loop listing env fuel resp.next_cursor with
          | error e => simp [hLp] at h
          | ok out2 =>
            simp only [hLp, Except.ok.injEq] at h
            rw [← h]
            simp only [List.map_append]
            exact (extractD_links env resp.results recs n hEx).append (ih resp.next_cursor out2 hLp)
        | false =>
          rw [if_neg (by rw [hm]; exact Bool.false_ne_true)] at h
          simp only [Except.ok.injEq] at h
          rw [← h]
          exact extractD_links env resp.results recs n hEx

theorem loopI_links (listing : Option String → Option QueryResp) (env : Env)
    (processed : List String) :
    ∀ (fuel : Nat) (cursor : Option String) (out : LoopOut),
      Ingestor.loop listing env processed fuel cursor = .ok out →
      (out.records.map (fun r => r.link)).Sublist (out.delivered.map (fun it => cardLink it.id)) := by
  intro fuel
  induction fuel with
  | zero =>
    intro cursor out h
    simp only [Ingestor.loop, Except.ok.injEq] at h
    rw [← h]
    simp
  | succ fuel ih =>
    intro cursor out h
    unfold Ingestor.loop at h
    cases hPg : get_database_items listing cursor with
    | none =>
      simp only [hPg, Except.ok.injEq] at h
      rw [← h]
      simp
    | some resp =>
      simp only [hPg] at h
      cases hEx : Ingestor.extract_card_info env processed resp.results with
      | error e => simp [hEx] at h
      | ok pr =>
        obtain ⟨recs, n⟩ := pr
        simp only [hEx] at h
        cases hm : resp.has_more with
        | true =>
          rw [if_pos hm] at h
          cases hLp : Ingestor.loop listing env processed fuel resp.next_cursor with
          | error e => simp [hLp] at h
          | ok out2 =>
            simp only [hLp, Except.ok.injEq] at h
            rw [← h]
            simp only [List.map_append]
            exact (extractI_links env processed resp.results recs n hEx).append (ih resp.next_cursor out2 hLp)
        | false =>
          rw [if_neg (by rw [hm]; exact Bool.false_ne_true)] at h
          simp only [Except.ok.injEq] at h
          rw [← h]
          exact extractI_links env processed resp.results recs n hEx

/-- Claim C5: in both variants, an Entry whose target field `'ORGA ID*'`
already holds non-empty rich text is skipped outright by the per-entry
step: no record is produced for it and no blocks-fetch call is issued. -/
theorem claim_C5 (env : Env) (processed : List String) (item : Item)
    (h : isFilled item.orgaId = true) :
    DataExtractor.processItem env item = .ok ⟨none, false, 0⟩
    ∧ Ingestor.processItem env processed item = .ok ⟨none, false, 0⟩ := by
  constructor
  · unfold DataExtractor.processItem
    rw [if_pos h]
  · unfold Ingestor.processItem
    rw [if_pos h]

/-- Claim C5 witness: the theorem applied to a concrete entry whose target
field holds non-empty rich text. -/
theorem claim_C5_witness :
    DataExtractor.processItem
        ⟨fun _ => none, fun _ _ => false, fun _ => none⟩
        ⟨"id-1", some ["already"], none⟩ = .ok ⟨none, false, 0⟩
    ∧ Ingestor.processItem
        ⟨fun _ => none, fun _ _ => false, fun _ => none⟩ []
        ⟨"id-1", some ["already"], none⟩ = .ok ⟨none, false, 0⟩ :=
  claim_C5 ⟨fun _ => none, fun _ _ => false, fun _ => none⟩ [] ⟨"id-1", some ["already"], none⟩ rfl

/-- Claim C2: in the write-back variant, for an entry that reaches the
write step (target field empty, not already processed, blocks fetched,
identifier discovered), a record is produced iff the write call returns
true and the subsequent verification returns true; any other combination
produces no record (but still one unit of progress); and verification is
true exactly when the re-fetched entry's field holds non-empty rich text
whose concatenated plain text is exactly the expected value. -/
theorem claim_C2 (env : Env) (processed : List String) (item : Item)
    (blocks : List Block) (oid : String)
    (h1 : isFilled item.orgaId = false)
    (h2 : processed.contains item.id = false)
    (h3 : env.fetchBlocks item.id = some blocks)
    (h4 : extract_org_id_from_blocks blocks = .ok (some oid)) :
    (Ingestor.processItem env processed item =
        .ok ⟨some ⟨cardLink item.id, titleOf item, oid, "Corpus"⟩, true, 1⟩
      ↔ (Ingestor.update_card_property env item.id oid = true
          ∧ Ingestor.verify_card_property env item.id oid = true))
    ∧ (¬(Ingestor.update_card_property env item.id oid = true
          ∧ Ingestor.verify_card_property env item.id oid = true) →
        Ingestor.processItem env processed item = .ok ⟨none, true, 1⟩)
    ∧ (Ingestor.verify_card_property env item.id oid = true ↔
        ∃ page texts, env.fetchPage item.id = some page ∧ page.orgaId = some texts ∧
          texts ≠ [] ∧ String.join texts = oid) := by
  have hstep : Ingestor.processItem env processed item =
      (if Ingestor.update_card_property env item.id oid = true then
        (if Ingestor.verify_card_property env item.id oid = true then
          Except.ok ⟨some ⟨cardLink item.id, titleOf item, oid, "Corpus"⟩, true, 1⟩
        else Except.ok ⟨none, true, 1⟩)
      else Except.ok ⟨none, true, 1⟩) := by
    unfold Ingestor.processItem
    rw [if_neg (by rw [h1]; exact Bool.false_ne_true),
        if_neg (by rw [h2]; exact Bool.false_ne_true)]
    simp only [h3, h4]
  refine ⟨?_, ?_, ?_⟩
  · rw [hstep]
    by_cases hu : Ingestor.update_card_property env item.id oid = true
    · rw [if_pos hu]
      by_cases hv : Ingestor.verify_card_property env item.id oid = true
      · rw [if_pos hv]
        simp [hu, hv]
      · rw [if_neg hv]
        simp [hu, hv]
    · rw [if_neg hu]
      simp [hu]
  · intro hn
    rw [hstep]
    by_cases hu : Ingestor.update_card_property env item.id oid = true
    · rw [if_pos hu]
      by_cases hv : Ingestor.verify_card_property env item.id oid = true
      · exact absurd ⟨hu, hv⟩ hn
      · rw [if_neg hv]
    · rw [if_neg hu]
  · unfold Ingestor.verify_card_property
    cases hpg : env.fetchPage item.id with
    | none =>
      constructor
      · intro hc
        exact absurd hc (by simp)
      · rintro ⟨page, texts, hp, -, -, -⟩
        simp at hp
    | some page =>
      cases hor : page.orgaId with
      | none =>
        simp only [hor]
        constructor
        · intro hc
          exact absurd hc (by simp)
        · rintro ⟨page2, texts, hp, hq, -, -⟩
          simp only [Option.some.injEq] at hp
          rw [← hp] at hq
          rw [hor] at hq
          simp at hq
      | some texts =>
        cases texts with
        | nil =>
          simp only [hor]
          constructor
          · intro hc
            exact absurd hc (by simp)
          · rintro ⟨page2, texts2, hp, hq, hne, -⟩
            simp only [Option.some.injEq] at hp
            rw [← hp] at hq
            rw [hor] at hq
            simp only [Option.some.injEq] at hq
            exact (hne hq.symm).elim
        | cons t ts =>
          simp only [hor]
          constructor
          · intro hc
            have : String.join (t :: ts) = oid := by
              exact eq_of_beq (by simpa using hc)
            exact ⟨page, t :: ts, rfl, hor, by simp, this⟩
          · rintro ⟨page2, texts2, hp, hq, -, hj⟩
            simp only [Option.some.injEq] at hp
            rw [← hp] at hq
            rw [hor] at hq
            simp only [Option.some.injEq] at hq
            rw [← hq] at hj
            simp [hj]

/-- Claim C2 witness: the theorem applied at a concrete entry where both
the write and the verification succeed, hence a record is produced. -/
theorem claim_C2_witness :
    Ingestor.processItem
        ⟨fun _ => some [⟨some "paragraph", [("paragraph", ⟨some ["x 11111111-2222-3333-4444-555555555555"]⟩)]⟩],
         fun _ _ => true,
         fun _ => some ⟨some ["11111111-2222-3333-4444-555555555555"]⟩⟩ []
        ⟨"pg-1", some [], some ["T"]⟩ =
      .ok ⟨some ⟨cardLink "pg-1", titleOf ⟨"pg-1", some [], some ["T"]⟩,
            "11111111-2222-3333-4444-555555555555", "Corpus"⟩, true, 1⟩ :=
  (claim_C2
    ⟨fun _ => some [⟨some "paragraph", [("paragraph", ⟨some ["x 11111111-2222-3333-4444-555555555555"]⟩)]⟩],
     fun _ _ => true,
     fun _ => some ⟨some ["11111111-2222-3333-4444-555555555555"]⟩⟩ []
    ⟨"pg-1", some [], some ["T"]⟩
    [⟨some "paragraph", [("paragraph", ⟨some ["x 11111111-2222-3333-4444-555555555555"]⟩)]⟩]
    "11111111-2222-3333-4444-555555555555"
    rfl rfl rfl (by rfl)).1.mpr ⟨rfl, by rfl⟩

/-- Claim C10: the Identifier Extractor reads `block['type']` and
`block[block_type]` for every block before checking whether the variant is
recognized: a block lacking the `'type'` key, or lacking the field named
by its `'type'` value (recognized or not), makes the extractor raise
rather than skip the block; a recognized block whose payload lacks
`'rich_text'` safely contributes empty text and is passed over. -/
theorem claim_C10 :
    (∀ (fields : List (String × BlockData)) (rest : List Block),
        extract_org_id_from_blocks (⟨none, fields⟩ :: rest) = .error ())
    ∧ (∀ (t : String) (fields : List (String × BlockData)) (rest : List Block),
        fields.lookup t = none →
        extract_org_id_from_blocks (⟨some t, fields⟩ :: rest) = .error ())
    ∧ (∀ (t : String) (fields : List (String × BlockData)) (bd : BlockData) (rest : List Block),
        fields.lookup t = some bd → recognizedTypes.contains t = true → bd.rich_text = none →
        extract_org_id_from_blocks (⟨some t, fields⟩ :: rest) = extract_org_id_from_blocks rest) := by
  refine ⟨fun fields rest => rfl, ?_, ?_⟩
  · intro t fields rest hlk
    unfold extract_org_id_from_blocks
    simp only [hlk]
  · intro t fields bd rest hlk hrec hrt
    have hbt : blockText bd = "" := by
      unfold blockText
      rw [hrt]
      rfl
    have hfu : firstUuid "" = none := rfl
    conv_lhs => unfold extract_org_id_from_blocks
    simp only [hlk]
    rw [if_pos hrec, hbt, hfu]

/-- Claim C10 witness: the theorem's last two parts applied at concrete
blocks: a block whose `'type'` names an absent field raises, and a
recognized block without `'rich_text'` is passed over, leaving the result
`none`. -/
theorem claim_C10_witness :
    extract_org_id_from_blocks [⟨some "toggle", [("other", ⟨none⟩)]⟩] = .error ()
    ∧ extract_org_id_from_blocks [⟨some "paragraph", [("paragraph", ⟨none⟩)]⟩] =
        extract_org_id_from_blocks [] :=
  ⟨claim_C10.2.1 "toggle" [("other", ⟨none⟩)] [] rfl,
   claim_C10.2.2 "paragraph" [("paragraph", ⟨none⟩)] ⟨none⟩ [] rfl rfl rfl⟩

/-- Claim C8: in both variants, an empty Result Record sequence writes no
file at all and emits a console message distinct from the success message;
a non-empty sequence writes the header row plus one data row per record —
an empty file containing only the header row is never produced. -/
theorem claim_C8 :
    ((DataExtractor.exportStep []).file = none ∧ (Ingestor.exportStep []).file = none)
    ∧ (∀ recs : List Record, recs ≠ [] →
        (DataExtractor.exportStep recs).file = some (csvHeader :: recs.map toCsvRow)
        ∧ csvHeader :: recs.map toCsvRow ≠ [csvHeader]
        ∧ (DataExtractor.exportStep recs).message ≠ (DataExtractor.exportStep []).message)
    ∧ (∀ recs : List Record, recs ≠ [] →
        (Ingestor.exportStep recs).file = some (csvHeader :: recs.map toCsvRow)
        ∧ csvHeader :: recs.map toCsvRow ≠ [csvHeader]
        ∧ (Ingestor.exportStep recs).message ≠ (Ingestor.exportStep []).message) := by
  refine ⟨⟨rfl, rfl⟩, ?_, ?_⟩
  · intro recs hne
    have hE : recs.isEmpty = false := by
      cases recs with
      | nil => exact absurd rfl hne
      | cons a l => rfl
    unfold DataExtractor.exportStep
    rw [hE, List.isEmpty_nil, if_neg (by decide), if_pos rfl]
    refine ⟨rfl, ?_, by dsimp only; decide⟩
    intro hbad
    have : recs.map toCsvRow = [] := by
      injection hbad with h1 h2
    exact hne (List.map_eq_nil_iff.mp this)
  · intro recs hne
    have hE : recs.isEmpty = false := by
      cases recs with
      | nil => exact absurd rfl hne
      | cons a l => rfl
    unfold Ingestor.exportStep
    rw [hE, List.isEmpty_nil, if_neg (by decide), if_pos rfl]
    refine ⟨rfl, ?_, by dsimp only; decide⟩
    intro hbad
    have : recs.map toCsvRow = [] := by
      injection hbad with h1 h2
    exact hne (List.map_eq_nil_iff.mp this)

/-- Claim C8 witness: the theorem applied at a concrete one-record
sequence. -/
theorem claim_C8_witness :
    (DataExtractor.exportStep [⟨"L", "T", "O", "Corpus"⟩]).file =
        some (csvHeader :: [(⟨"L", "T", "O", "Corpus"⟩ : Record)].map toCsvRow)
    ∧ csvHeader :: [(⟨"L", "T", "O", "Corpus"⟩ : Record)].map toCsvRow ≠ [csvHeader]
    ∧ (DataExtractor.exportStep [⟨"L", "T", "O", "Corpus"⟩]).message ≠
        (DataExtractor.exportStep []).message :=
  claim_C8.2.1 [⟨"L", "T", "O", "Corpus"⟩] (by simp)

/-- Claim C4 counterexample: a run that passes exactly one entry to the
per-entry step (it is skipped-already-set) finishes with a progress count
of 0, not 1: the skip paths `continue` before `progress_bar.update(1)`, so
a skipped terminal outcome does not advance the indicator. -/
theorem claim_C4_counterexample :
    DataExtractor.loop c4Listing c4Env 1 none = .ok ⟨[], 0, [c4Item], .done⟩
    ∧ [c4Item].length = 1 ∧ (0 : Nat) ≠ 1 :=
  ⟨rfl, rfl, by decide⟩

/-- Claim C4 as amended: in both variants, the progress indicator's
completed count at the end equals the number of delivered Entries that are
not skipped — by the already-set check and, in the write-back variant, the
already-processed check; skipped entries do not advance the indicator. -/
theorem claim_C4_amended :
    (∀ (listing : Option String → Option QueryResp) (env : Env) (fuel : Nat)
        (cursor : Option String) (out : LoopOut),
        DataExtractor.loop listing env fuel cursor = .ok out →
        out.progress = out.delivered.countP notSkippedD)
    ∧ (∀ (listing : Option String → Option QueryResp) (env : Env) (processed : List String)
        (fuel : Nat) (cursor : Option String) (out : LoopOut),
        Ingestor.loop listing env processed fuel cursor = .ok out →
        out.progress = out.delivered.countP (notSkippedI processed)) :=
  ⟨fun listing env fuel cursor out h => loopD_progress listing env fuel cursor out h,
   fun listing env processed fuel cursor out h => loopI_progress listing env processed fuel cursor out h⟩

/-- Claim C4 amended witness: the amended theorem applied to a concrete
run delivering one skipped and one processed entry; the final count is 1. -/
theorem claim_C4_amended_witness :
    (1 : Nat) = [c4Item, c4wItem].countP notSkippedD :=
  claim_C4_amended.1 c4wListing c4Env 1 none ⟨[], 1, [c4Item, c4wItem], .done⟩ rfl

/-- Claim C6 counterexample: when the remote listing delivers the same
entry on two pages, the read-only variant records it twice in a single run
(the write-back variant has the same repetition, since its processed-id
set is not updated during the run); the Result Record sequence is not
duplicate-free for arbitrary listings. -/
theorem claim_C6_counterexample :
    DataExtractor.main c6Listing c6Env 2 = .exported [c6Rec, c6Rec] 2
    ∧ [c6Rec, c6Rec].count c6Rec = 2 :=
  ⟨rfl, by decide⟩

/-- Claim C6 as amended: in both variants, an Entry is included in the
accumulated Result Record sequence at most once per run provided the
listing delivers entries whose links (ids up to hyphen removal) are
pairwise distinct across the traversed pages: the record links form a
duplicate-free list. -/
theorem claim_C6_amended :
    (∀ (listing : Option String → Option QueryResp) (env : Env) (fuel : Nat)
        (cursor : Option String) (out : LoopOut),
        DataExtractor.loop listing env fuel cursor = .ok out →
        (out.delivered.map (fun it => cardLink it.id)).Nodup →
        (out.records.map (fun r => r.link)).Nodup)
    ∧ (∀ (listing : Option String → Option QueryResp) (env : Env) (processed : List String)
        (fuel : Nat) (cursor : Option String) (out : LoopOut),
        Ingestor.loop listing env processed fuel cursor = .ok out →
        (out.delivered.map (fun it => cardLink it.id)).Nodup →
        (out.records.map (fun r => r.link)).Nodup) :=
  ⟨fun listing env fuel cursor out h hnd =>
      hnd.sublist (loopD_links listing env fuel cursor out h),
   fun listing env processed fuel cursor out h hnd =>
      hnd.sublist (loopI_links listing env processed fuel cursor out h)⟩

/-- Claim C6 amended witness: the amended theorem applied to a concrete
run with pairwise-distinct delivered links; the single resulting record
link list is duplicate-free. -/
theorem claim_C6_amended_witness :
    (([c6Rec] : List Record).map (fun r => r.link)).Nodup :=
  claim_C6_amended.1 c6wListing c6Env 1 none ⟨[c6Rec], 1, [c4Item, c6Item], .done⟩ rfl (by decide)

/-- Claim C7 counterexample: a run whose initial cursor-less listing
succeeds can still fail to reach the export step: a malformed block makes
the extractor raise an uncaught exception, so a failed initial listing is
not the only condition aborting the run before export. -/
theorem claim_C7_counterexample :
    c7Listing none = some ⟨[c7Item], false, none⟩
    ∧ DataExtractor.main c7Listing c7Env 1 = .crashed
    ∧ MainResult.crashed ≠ .exported [] 0 :=
  ⟨rfl, rfl, by decide⟩

/-- Claim C7 as amended: in both variants, provided no uncaught exception
occurs while processing blocks and the pagination terminates, a run whose
initial cursor-less listing succeeds always reaches its export step with
whatever records were accumulated — in particular a mid-run page-fetch
failure only breaks the pagination loop — and a failed initial listing is
exactly the condition producing the early-abort outcome. -/
theorem claim_C7_amended :
    (∀ (listing : Option String → Option QueryResp) (env : Env) (fuel : Nat)
        (out : LoopOut) (r0 : QueryResp), listing none = some r0 →
        DataExtractor.loop listing env fuel none = .ok out → out.stop ≠ .outOfFuel →
        DataExtractor.main listing env fuel = .exported out.records out.progress)
    ∧ (∀ (listing : Option String → Option QueryResp) (env : Env)
        (existing : Option (List Record)) (fuel : Nat) (out : LoopOut) (r0 : QueryResp),
        listing none = some r0 →
        Ingestor.loop listing env (Ingestor.processedFrom existing) fuel none = .ok out →
        out.stop ≠ .outOfFuel →
        Ingestor.main listing env existing fuel = .exported out.records out.progress)
    ∧ (∀ (listing : Option String → Option QueryResp) (env : Env) (fuel : Nat),
        DataExtractor.main listing env fuel = .abortInitial ↔ listing none = none)
    ∧ (∀ (listing : Option String → Option QueryResp) (env : Env)
        (existing : Option (List Record)) (fuel : Nat),
        Ingestor.main listing env existing fuel = .abortInitial ↔ listing none = none) := by
  refine ⟨?_, ?_, ?_, ?_⟩
  · intro listing env fuel out r0 h0 hloop hstop
    unfold DataExtractor.main
    have hg : get_database_items listing none = some r0 := h0
    simp only [hg, hloop]
  · intro listing env existing fuel out r0 h0 hloop hstop
    unfold Ingestor.main
    have hg : get_database_items listing none = some r0 := h0
    simp only [hg, hloop]
  · intro listing env fuel
    constructor
    · intro h
      cases hl : listing none with
      | none => rfl
      | some r =>
        unfold DataExtractor.main at h
        have hg : get_database_items listing none = some r := hl
        simp only [hg] at h
        cases hlp : DataExtractor.loop listing env fuel none with
        | error e => simp [hlp] at h
        | ok out =>
          simp only [hlp] at h
          cases hs : out.stop <;> simp [hs] at h
    · intro h
      unfold DataExtractor.main
      have hg : get_database_items listing none = none := h
      simp only [hg]
  · intro listing env existing fuel
    constructor
    · intro h
      cases hl : listing none with
      | none => rfl
      | some r =>
        unfold Ingestor.main at h
        have hg : get_database_items listing none = some r := hl
        simp only [hg] at h
        cases hlp : Ingestor.loop listing env (Ingestor.processedFrom existing) fuel none with
        | error e => simp [hlp] at h
        | ok out =>
          simp only [hlp] at h
          cases hs : out.stop <;> simp [hs] at h
    · intro h
      unfold Ingestor.main
      have hg : get_database_items listing none = none := h
      simp only [hg]

/-- Claim C7 amended witness: the amended theorem applied to a concrete
run: the initial listing succeeds, the loop finishes, and the run reaches
its export step; in the same setting a listing that fails its first call
yields exactly the early-abort outcome. -/
theorem claim_C7_amended_witness :
    DataExtractor.main c7wListing c4Env 1 = .exported [] 0
    ∧ (DataExtractor.main (fun _ => none) c4Env 1 = .abortInitial ↔ (fun _ => none : Option String → Option QueryResp) none = none) :=
  ⟨claim_C7_amended.1 c7wListing c4Env 1 ⟨[], 0, [c4Item], .done⟩ ⟨[c4Item], false, none⟩ rfl rfl (by decide),
   claim_C7_amended.2.2.1 (fun _ => none) c4Env 1⟩

/-- Claim C9: in the write-back variant, the end-of-run export writes
exactly the current run's records to the fixed output path — the file
content is the header row plus one row per current record, so a row from
the pre-existing file (read at startup to seed the processed-id set)
survives only if its entry was re-recorded in this run. -/
theorem claim_C9 (listing : Option String → Option QueryResp) (env : Env)
    (existing : Option (List Record)) (fuel : Nat) (recs : List Record) (n : Nat)
    (_hrun : Ingestor.main listing env existing fuel = .exported recs n)
    (content : List String)
    (hfile : (Ingestor.exportStep recs).file = some content) :
    content = csvHeader :: recs.map toCsvRow
    ∧ ∀ prior ∈ existing.getD [], toCsvRow prior ∈ content →
        toCsvRow prior = csvHeader ∨ ∃ r ∈ recs, toCsvRow prior = toCsvRow r := by
  have hcontent : content = csvHeader :: recs.map toCsvRow := by
    unfold Ingestor.exportStep at hfile
    by_cases hE : recs.isEmpty = true
    · rw [if_pos hE] at hfile
      simp at hfile
    · rw [if_neg hE] at hfile
      dsimp only at hfile
      simp only [Option.some.injEq] at hfile
      exact hfile.symm
  refine ⟨hcontent, ?_⟩
  intro prior hp hmem
  rw [hcontent] at hmem
  rcases List.mem_cons.mp hmem with h1 | h2
  · exact Or.inl h1
  · obtain ⟨r, hr, heq⟩ := List.mem_map.mp h2
    exact Or.inr ⟨r, hr, heq.symm⟩

/-- Claim C9 witness: the theorem applied to a concrete run against a
pre-existing one-row file; the written content is exactly the current
run's header-plus-row. -/
theorem claim_C9_witness :
    ([csvHeader, toCsvRow c9New] : List String) = csvHeader :: [c9New].map toCsvRow
    ∧ ∀ prior ∈ (some [c9Old] : Option (List Record)).getD [],
        toCsvRow prior ∈ [csvHeader, toCsvRow c9New] →
        toCsvRow prior = csvHeader ∨ ∃ r ∈ [c9New], toCsvRow prior = toCsvRow r :=
  claim_C9 c9Listing c9Env (some [c9Old]) 1 [c9New] 1 (by decide) [csvHeader, toCsvRow c9New] rfl

/-- Claim C1 evaluation at the failing input: a first run over a
hyphenated-id entry exports its record, whose link holds the id with
hyphens removed; the processed-id set seeded from that export therefore
contains only the de-hyphenated id, so a second run over the same listing
does not skip the entry — it re-fetches its blocks, re-writes the field
and re-exports the record (progress 1) instead of the claimed
skipped-already-processed outcome (no record, progress 0). -/
theorem claim_C1_eval :
    Ingestor.main c1Listing c1Env none 1 = .exported [c1Rec] 1
    ∧ Ingestor.processedFrom (some [c1Rec]) = [stripHyphens c1Id]
    ∧ stripHyphens c1Id ≠ c1Id
    ∧ Ingestor.main c1Listing c1Env (some [c1Rec]) 1 = .exported [c1Rec] 1 :=
  ⟨by decide, by decide, by decide, by decide⟩
